import Mathlib

/-!
# Verification of the wlanThermoGrafanaBridge message pipeline

A shallow embedding of `wlanThermoGrafanaBridge.py`: the timestamp
normalizer (`getTimestampStr`), the record builders (`createDataPoints`,
`createSettingsPoints` and their helpers), the settings replicator
(`prepareReplicatedPoints`), the sink writer (`addPointsToDatabase`) and
the settings message handler (`on_wlanthermo_settings`).

Decoded JSON payloads are modelled by the inductive type `JValue`.
Python floats are modelled as rationals (no claim depends on binary
floating-point rounding; the only float arithmetic in the source is the
order comparison `channel['temp'] < 999`).  Exceptions are modelled with
`Option`/`Except`; the `Except` error value of a record-builder helper
carries the records appended to the shared `points` list before the
exception was raised, because the source's `except` handler still
executes `return points`.
-/

set_option autoImplicit false

/-- A decoded JSON value (the result of `json.loads`). -/
inductive JValue where
  | jnull
  | jbool (b : Bool)
  | jint (n : Int)
  | jfloat (q : Rat)
  | jstr (s : String)
  | jarr (elems : List JValue)
  | jobj (entries : List (String × JValue))

/-- Python subscription `v[key]` on a decoded JSON value: succeeds only on a
dict (first entry wins; `json.loads` never produces duplicate keys), raises
(`none`) otherwise — `KeyError` on a missing key, `TypeError` on non-dicts. -/
def jGet : JValue → String → Option JValue
  | .jobj entries, key => entries.lookup key
  | _, _ => none

/-- Python iteration `for x in v`: lists yield their elements, dicts their
keys (insertion order), strings their characters; other values raise
`TypeError` (`none`). -/
def pyIter : JValue → Option (List JValue)
  | .jarr elems => some elems
  | .jobj entries => some (entries.map (fun e => JValue.jstr e.1))
  | .jstr s => some (s.data.map (fun c => JValue.jstr (String.mk [c])))
  | _ => none

/-- Python `int(v)`: ints pass through, bools coerce, floats truncate toward
zero, strings parse as decimal integers; everything else raises (`none`). -/
def pyToInt : JValue → Option Int
  | .jint n => some n
  | .jbool b => some (if b then 1 else 0)
  | .jfloat q => some (Int.tdiv q.num (q.den : Int))
  | .jstr s => s.toInt?
  | _ => none

/-- Python order comparison `v < m` against an int literal: defined for
numbers and bools, raises `TypeError` (`none`) otherwise. -/
def pyLtInt : JValue → Int → Option Bool
  | .jint n, m => some (decide (n < m))
  | .jfloat q, m => some (decide (q < (m : Rat)))
  | .jbool b, m => some (decide ((if b then (1 : Int) else 0) < m))
  | _, _ => none

/-- Left-pad the decimal rendering of `n` with zeros to width `w`. -/
def padZeros (w : Nat) (n : Nat) : String :=
  let s := toString n
  String.mk (List.replicate (w - s.length) '0') ++ s

/-- Decimal rendering of the rational model of a Python float (`str(25.0)`
is `"25.0"`).  Finite decimals of up to six fractional digits — every float
the device emits — are rendered exactly; other rationals fall outside the
modelled fragment and are rendered as a fraction. -/
def floatRepr (q : Rat) : String :=
  let sign := if q < 0 then "-" else ""
  let n := q.num.natAbs
  match (List.range 7).find? (fun k => 10 ^ k * n % q.den = 0) with
  | some 0 => sign ++ toString (n / q.den) ++ ".0"
  | some k =>
      let scaled := 10 ^ k * n / q.den
      sign ++ toString (scaled / 10 ^ k) ++ "." ++ padZeros k (scaled % 10 ^ k)
  | none => sign ++ toString n ++ "/" ++ toString q.den

/-- Python `"{}".format(v)` / `str(v)` for the values the source formats
(`channel['number']`, `pmObject['id']`).  Containers never reach a format
call in any verified property; their Python `repr` is abbreviated. -/
def pyFormat : JValue → String
  | .jint n => toString n
  | .jstr s => s
  | .jbool b => if b then "True" else "False"
  | .jnull => "None"
  | .jfloat q => floatRepr q
  | .jarr _ => "[...]"
  | .jobj _ => "\x7b...\x7d"

/-! ## Timestamp normalizer (`getTimestampStr`, source lines 17-30)

A naive `datetime` is its civil (wall-clock) field tuple; we represent it
by the signed count of seconds between `0001-01-01 00:00:00` of the same
calendar and the civil tuple, i.e. `fromtimestamp(t)` under UTC offset
`off` is represented by `t + off` (shifted so that `1970-01-01 00:00:00`
is zero).  `datetime.utcnow()` yields the civil tuple of the current UTC
time; `.astimezone()` on a naive datetime interprets it as local time, so
it attaches the host offset without changing the civil fields;
`.replace(microsecond=0)` drops sub-second precision (our clock model
already counts whole seconds). -/

/-- The ambient wall clock and host timezone, the only effectful inputs of
`getTimestampStr`: `nowUtc` is `datetime.utcnow()` as whole seconds since
the epoch, `tzOffset` the host's fixed UTC offset in seconds. -/
structure Clock where
  nowUtc : Int
  tzOffset : Int
deriving DecidableEq

/-- Civil date from a count of days since 1970-01-01 (proleptic Gregorian):
returns `(year, month, day)`. -/
def civilFromDays (z0 : Int) : Int × Nat × Nat :=
  let z := z0 + 719468
  let era := Int.fdiv z 146097
  let doe := (z - era * 146097).toNat
  let yoe := (doe - doe / 1460 + doe / 36524 - doe / 146096) / 365
  let y := (yoe : Int) + era * 400
  let doy := doe - (365 * yoe + yoe / 4 - yoe / 100)
  let mp := (5 * doy + 2) / 153
  let d := doy - (153 * mp + 2) / 5 + 1
  let m := if mp < 10 then mp + 3 else mp - 9
  (if m ≤ 2 then y + 1 else y, m, d)

/-- The `±HH:MM[:SS]` suffix `datetime.isoformat` prints for a fixed UTC
offset of `off` seconds. -/
def offsetIso (off : Int) : String :=
  let a := off.natAbs
  (if off < 0 then "-" else "+") ++ padZeros 2 (a / 3600) ++ ":" ++
    padZeros 2 (a % 3600 / 60) ++
    (if a % 60 = 0 then "" else ":" ++ padZeros 2 (a % 60))

/-- `datetime.isoformat()` of the aware datetime whose civil fields are
given by `civilSeconds` (seconds since civil 1970-01-01 00:00:00) and whose
fixed UTC offset is `off` seconds. -/
def isoformat (civilSeconds : Int) (off : Int) : String :=
  let days := Int.fdiv civilSeconds 86400
  let sod := (Int.emod civilSeconds 86400).toNat
  let ymd := civilFromDays days
  padZeros 4 ymd.1.toNat ++ "-" ++ padZeros 2 ymd.2.1 ++ "-" ++
    padZeros 2 ymd.2.2 ++ "T" ++ padZeros 2 (sod / 3600) ++ ":" ++
    padZeros 2 (sod % 3600 / 60) ++ ":" ++ padZeros 2 (sod % 60) ++
    offsetIso off

/-- Civil seconds of `datetime.min` (`0001-01-01 00:00:00`): the smallest
civil tuple `datetime.fromtimestamp` can produce. -/
def minDatetimeSeconds : Int := -62135596800

/-- Civil seconds of `10000-01-01 00:00:00`: `datetime.fromtimestamp`
raises (`year 10000 out of range` / `OverflowError`) at or beyond it,
since `datetime.MAXYEAR = 9999`. -/
def maxDatetimeSecondsExclusive : Int := 253402300800

/-- Source lines 17-30.  `getTimestampStr(unixTimestamp)`: below the
1990-01-01 threshold the device is assumed to run on its internal uptime
counter and the receive time (`datetime.utcnow()`) is formatted instead;
otherwise `datetime.fromtimestamp` interprets the value in local time,
raising (`none`) when the resulting civil year falls outside
`datetime`'s representable range `1..9999`. -/
def getTimestampStr (clk : Clock) (unixTimestamp : Int) : Option String :=
  if unixTimestamp < 631152000 then
    -- internal system time of wlanthermo: use the receive timestamp
    some (isoformat clk.nowUtc clk.tzOffset)
  else
    if minDatetimeSeconds ≤ unixTimestamp + clk.tzOffset ∧
        unixTimestamp + clk.tzOffset < maxDatetimeSecondsExclusive then
      some (isoformat (unixTimestamp + clk.tzOffset) clk.tzOffset)
    else none

/-! ## Time-series records and the record builders (source lines 44-132)

Each builder helper receives the shared `points` list and either returns
the extended list (`Except.ok`) or raises; the `Except.error` value
carries the contents of `points` at the moment the exception was raised,
because `createDataPoints`/`createSettingsPoints` catch the exception and
still `return points`. -/

/-- One time-series record (a `points` list entry): `measurement`, `time`,
the optional `tags` dict, and the `fields` dict taken verbatim from the
message. -/
structure Record where
  measurement : String
  time : String
  tags : Option (List (String × JValue))
  fields : JValue

/-- The list a builder stage leaves in `points`, whether or not it raised. -/
def exceptPoints : Except (List Record) (List Record) → List Record
  | .ok p => p
  | .error p => p

/-- Source lines 44-52: append the single System record; raises when
`message['system']` is missing. -/
def createDataSystemPoints (points : List Record) (timestamp : String)
    (message : JValue) : Except (List Record) (List Record) :=
  match jGet message "system" with
  | none => .error points
  | some sys => .ok (points ++ [⟨"System", timestamp, none, sys⟩])

/-- The body of the channel loop (source lines 57-70) for one element:
`none` models a raised exception, `some none` a skipped inactive channel
(`temp >= 999`), `some (some r)` an appended record. -/
def chanStep (timestamp : String) (channel : JValue) : Option (Option Record) :=
  match jGet channel "temp" with
  | none => none
  | some temp =>
    match pyLtInt temp 999 with
    | none => none
    | some false => some none -- 999 means channel not active
    | some true =>
      match jGet channel "number" with
      | none => none
      | some num =>
        match jGet channel "name" with
        | none => none
        | some nm =>
          some (some ⟨"Channel " ++ pyFormat num, timestamp,
            some [("channel", JValue.jstr ("Channel " ++ pyFormat num)),
                  ("alias", nm)],
            channel⟩)

/-- The channel `for` loop: processes elements in order, appending active
channels, until done or an element raises. -/
def channelLoop (points : List Record) (timestamp : String) :
    List JValue → Except (List Record) (List Record)
  | [] => .ok points
  | ch :: rest =>
    match chanStep timestamp ch with
    | none => .error points
    | some none => channelLoop points timestamp rest
    | some (some r) => channelLoop (points ++ [r]) timestamp rest

/-- Source lines 54-70: iterate `message['channel']`; raises when the key
is missing or the value is not iterable. -/
def createDataChannelPoints (points : List Record) (timestamp : String)
    (message : JValue) : Except (List Record) (List Record) :=
  match jGet message "channel" with
  | none => .error points
  | some chv =>
    match pyIter chv with
    | none => .error points
    | some chs => channelLoop points timestamp chs

/-- The body of the pitmaster loop (source lines 75-81) for one element:
`none` models a raised exception. -/
def pmStep (timestamp : String) (pmObject : JValue) : Option Record :=
  match jGet pmObject "id" with
  | none => none
  | some pmId =>
      some ⟨"Pitmaster " ++ pyFormat pmId, timestamp, none, pmObject⟩

/-- The pitmaster `for` loop. -/
def pitmasterLoop (points : List Record) (timestamp : String) :
    List JValue → Except (List Record) (List Record)
  | [] => .ok points
  | pm :: rest =>
    match pmStep timestamp pm with
    | none => .error points
    | some r => pitmasterLoop (points ++ [r]) timestamp rest

/-- Source lines 72-81: iterate `message['pitmaster']['pm']`. -/
def createDataPitmasterPoints (points : List Record) (timestamp : String)
    (message : JValue) : Except (List Record) (List Record) :=
  match jGet message "pitmaster" with
  | none => .error points
  | some pmv =>
    match jGet pmv "pm" with
    | none => .error points
    | some pms =>
      match pyIter pms with
      | none => .error points
      | some l => pitmasterLoop points timestamp l

/-- `int(message['system']['time'])` (source lines 106 and 123). -/
def systemTimeInt (message : JValue) : Option Int :=
  ((jGet message "system").bind (fun s => jGet s "time")).bind pyToInt

/-- Source lines 102-117.  `createDataPoints(message)`: builds the System,
Channel and Pitmaster records in order inside a `try`; on an exception the
handler logs and the function still returns whatever was appended to
`points` so far. -/
def createDataPoints (clk : Clock) (message : JValue) : List Record :=
  match systemTimeInt message with
  | none => []
  | some t =>
    match getTimestampStr clk t with
    | none => []
    | some timestampStr =>
      match createDataSystemPoints [] timestampStr message with
      | .error p => p
      | .ok p1 =>
        match createDataChannelPoints p1 timestampStr message with
        | .error p => p
        | .ok p2 => exceptPoints (createDataPitmasterPoints p2 timestampStr message)

/-- Derived notion (not a source function): the data build completed with
no exception raised; `some` of the full record list in that case.  Used to
state which messages are "valid". -/
def createDataPointsE (clk : Clock) (message : JValue) : Option (List Record) :=
  match systemTimeInt message with
  | none => none
  | some t =>
    match getTimestampStr clk t with
    | none => none
    | some timestampStr =>
      match createDataSystemPoints [] timestampStr message with
      | .error _ => none
      | .ok p1 =>
        match createDataChannelPoints p1 timestampStr message with
        | .error _ => none
        | .ok p2 =>
          match createDataPitmasterPoints p2 timestampStr message with
          | .error _ => none
          | .ok p => some p

/-- Source lines 83-91: append the single "System settings" record. -/
def createSettingsSystemPoints (points : List Record) (timestamp : String)
    (message : JValue) : Except (List Record) (List Record) :=
  match jGet message "system" with
  | none => .error points
  | some sys => .ok (points ++ [⟨"System settings", timestamp, none, sys⟩])

/-- Source lines 119-132.  `createSettingsPoints(message)`. -/
def createSettingsPoints (clk : Clock) (message : JValue) : List Record :=
  match systemTimeInt message with
  | none => []
  | some t =>
    match getTimestampStr clk t with
    | none => []
    | some timestampStr =>
      exceptPoints (createSettingsSystemPoints [] timestampStr message)

/-! ## Sink writer (`addPointsToDatabase`, source lines 93-100)

The InfluxDB client is modelled by its observable interaction: the batches
submitted to `write_points` and the batches the store accepted.  Whether
the next `write_points` call raises is an environment choice, passed in as
the flag `fails`. -/

/-- Observable state of the external time-series store connection. -/
structure SinkState where
  /-- every batch submitted to `write_points`, in call order -/
  attempted : List (List Record)
  /-- every batch the store accepted (the call did not raise) -/
  stored : List (List Record)

/-- `influxDbClient.write_points(points=..., database='wlanthermo')`:
records the submitted batch and either succeeds or raises. -/
def write_points (fails : Bool) (s : SinkState) (points : List Record) :
    SinkState × Except Unit Unit :=
  if fails then
    ({ s with attempted := s.attempted ++ [points] }, .error ())
  else
    ({ attempted := s.attempted ++ [points], stored := s.stored ++ [points] }, .ok ())

/-- Source lines 93-100.  `addPointsToDatabase(influxDbClient, points)`:
skips empty lists; otherwise submits the whole list as one batch inside a
`try` whose handler only logs — the function itself never raises, which is
why it returns a plain `SinkState` rather than an `Except`. -/
def addPointsToDatabase (fails : Bool) (s : SinkState) (points : List Record) :
    SinkState :=
  if points.length > 0 then
    match write_points fails s points with
    | (s1, .ok _) => s1 -- log info: datapoints inserted
    | (s1, .error _) => s1 -- exception caught: log warning, not re-raised
  else s

/-! ## Settings handler (`on_wlanthermo_settings`, source lines 165-176)

Value-level model of the handler's effect on the `GlobalScope` object.
The payload argument is the outcome of `json.loads` on the decoded text:
`none` when it raised. -/

/-- The `GlobalScope` instance threaded through the mqtt callbacks
(source lines 12-15), at value granularity; the InfluxDB client handle is
represented by the observable `SinkState`. -/
structure GlobalScope where
  replicateSettings : Bool
  lastSettingsPoints : List Record
  sink : SinkState

/-- Source lines 165-176.  On a settings message: decode, build the
settings records, overwrite `lastSettingsPoints` (line 172), write the
records.  A `json.loads` exception is caught after nothing but logging has
happened, leaving the state unchanged; `createSettingsPoints` and
`addPointsToDatabase` catch internally and never raise. -/
def on_wlanthermo_settings (clk : Clock) (fails : Bool) (gs : GlobalScope)
    (payload : Option JValue) : GlobalScope :=
  match payload with
  | none => gs -- failed to parse json payload: log and drop
  | some messageJson =>
    let points := createSettingsPoints clk messageJson
    { gs with
      lastSettingsPoints := points,
      sink := addPointsToDatabase fails gs.sink points }

/-! ## Heap model for the settings replicator (source lines 32-42 and 172)

Python assignment copies references, so the cache-isolation claims are
about object identity.  We model the mutable objects the replicator
touches — record dicts and lists of records — by a heap from addresses to
values; an entry inside a record (`fields`, `tags`) is modelled at value
granularity, mutation of a record dict being replacement of the record
value at its address.  `copy.deepcopy` allocates fresh addresses carrying
equal values (its memo-sharing of aliased elements is not observable by
any claim). -/

/-- First-match association-list lookup. -/
def alookup {α : Type} : List (Nat × α) → Nat → Option α
  | [], _ => none
  | (k, v) :: es, a => if a = k then some v else alookup es a

/-- Replace the value at the first matching key, if present. -/
def aupdate {α : Type} : List (Nat × α) → Nat → α → List (Nat × α)
  | [], _, _ => []
  | (k, v) :: es, a, w => if a = k then (k, w) :: es else (k, v) :: aupdate es a w

/-- The heap: record dicts and record lists, addressed by `Nat`; `fresh` is
the next unused address (every live address is below it). -/
structure Heap where
  recs : List (Nat × Record)
  lists : List (Nat × List Nat)
  fresh : Nat

/-- The record dict stored at address `a`, if any. -/
def Heap.getRec (h : Heap) (a : Nat) : Option Record := alookup h.recs a

/-- The record list stored at address `a`, if any. -/
def Heap.getList (h : Heap) (a : Nat) : Option (List Nat) := alookup h.lists a

/-- In-place mutation of the record dict at address `a` (e.g. the caller
executing `rec['fields'] = ...` on a record it still references). -/
def Heap.setRec (h : Heap) (a : Nat) (r : Record) : Heap :=
  { h with recs := aupdate h.recs a r }

/-- Allocate one fresh record object. -/
def Heap.allocRec (h : Heap) (r : Record) : Heap × Nat :=
  ({ h with recs := (h.fresh, r) :: h.recs, fresh := h.fresh + 1 }, h.fresh)

/-- Allocate fresh record objects for each value, in order. -/
def Heap.allocRecs : Heap → List Record → Heap × List Nat
  | h, [] => (h, [])
  | h, r :: rs =>
    let x := h.allocRec r
    let y := x.1.allocRecs rs
    (y.1, x.2 :: y.2)

/-- Allocate one fresh list object. -/
def Heap.allocList (h : Heap) (elems : List Nat) : Heap × Nat :=
  ({ h with lists := (h.fresh, elems) :: h.lists, fresh := h.fresh + 1 }, h.fresh)

/-- Source line 172, `globalScope.lastSettingsPoints = points`: the cache
field of `GlobalScope`, at heap granularity, receives the address of the
caller's list — a reference assignment, no copy of any kind. -/
structure GlobalScopeH where
  lastSettingsPoints : Nat

/-- The settings handler's cache update (source line 172) in the heap
model: store the address of the freshly built `points` list. -/
def storeSettings (gs : GlobalScopeH) (pointsAddr : Nat) : GlobalScopeH :=
  { gs with lastSettingsPoints := pointsAddr }

/-- The record values at a list of addresses: `none` when any address
dangles (impossible for the reference-counted Python heap). -/
def lookupRecs (h : Heap) : List Nat → Option (List Record)
  | [] => some []
  | a :: rest =>
    match h.getRec a with
    | none => none
    | some r =>
      match lookupRecs h rest with
      | none => none
      | some rs => some (r :: rs)

/-- Source lines 32-42.  `prepareReplicatedPoints(points, dataUnixTimestamp)`:
on a non-empty list, deep-copy it, compute the normalized timestamp, and
overwrite `time` on every copied record; on an empty list, return a fresh
empty list.  `none` models the exception `getTimestampStr` can raise
propagating out (the deep copies allocated before it become garbage, which
no caller can observe), and the unreachable case of a dangling address. -/
def prepareReplicatedPoints (clk : Clock) (h : Heap) (pointsAddr : Nat)
    (dataUnixTimestamp : Int) : Option (Heap × Nat) :=
  match h.getList pointsAddr with
  | none => none
  | some addrs =>
    if addrs.length > 0 then
      match lookupRecs h addrs with
      | none => none
      | some rs =>
        match getTimestampStr clk dataUnixTimestamp with
        | none => none
        | some timestampStr =>
          -- deepcopy, then change timestamp on each new point
          let x := h.allocRecs (rs.map (fun r => { r with time := timestampStr }))
          some (x.1.allocList x.2)
    else
      some (h.allocList [])

/-- The record values reachable from the list returned by a
`prepareReplicatedPoints` call: what the caller hands to the sink writer. -/
def replicatedRecords (clk : Clock) (h : Heap) (pointsAddr : Nat)
    (dataUnixTimestamp : Int) : Option (List Record) :=
  match prepareReplicatedPoints clk h pointsAddr dataUnixTimestamp with
  | none => none
  | some x =>
    match x.1.getList x.2 with
    | none => none
    | some addrs => lookupRecs x.1 addrs

/-! ## Derived observations and concrete scenario inputs -/

/-- Number of records in a list carrying the given measurement name. -/
def countMeasurement (points : List Record) (ms : String) : Nat :=
  (points.filter (fun r => r.measurement == ms)).length

/-- The measurement name a channel object would produce,
`"Channel {number}"`; `none` when the channel has no `number` key. -/
def chanMeasurement (ch : JValue) : Option String :=
  (jGet ch "number").map (fun num => "Channel " ++ pyFormat num)

/-- Whether a channel is active: its `temp` compares below the sentinel
999. -/
def chanActive (ch : JValue) : Bool :=
  decide ((jGet ch "temp").bind (fun temp => pyLtInt temp 999) = some true)

/-- A fixed message receipt context: receive time 2023-11-14T22:15:23 UTC,
host timezone UTC. -/
def clk0 : Clock := ⟨1700000123, 0⟩

/-- The normalized timestamp of `system.time = 1700000000` under `clk0`. -/
def tsA : String := "2023-11-14T22:13:20+00:00"

/-- The channel object of end-to-end scenario A:
`temp=25.0, number=1, name="Grill"`. -/
def chanA : JValue :=
  .jobj [("temp", .jfloat 25), ("number", .jint 1), ("name", .jstr "Grill")]

/-- The data message of end-to-end scenario A: `system.time = 1700000000`,
one channel, one pitmaster controller. -/
def msgA : JValue := .jobj [
  ("system", .jobj [("time", .jint 1700000000)]),
  ("channel", .jarr [chanA]),
  ("pitmaster", .jobj [("pm", .jarr [.jobj [("id", .jint 1)]])])]

/-- A data message whose `system` section is fine but which lacks the
`channel` key, so the build raises after the System record was appended. -/
def msgNoChannel : JValue := .jobj [("system", .jobj [("time", .jint 1700000000)])]

/-- A message whose `system.time` is not numeric (`int(None)` raises). -/
def msgBadTime : JValue := .jobj [("system", .jobj [("time", .jnull)])]

/-- A data message with two channels that share `number = 1`, the first
inactive (`temp = 999`), the second active. -/
def msgDup : JValue := .jobj [
  ("system", .jobj [("time", .jint 1700000000)]),
  ("channel", .jarr [
    .jobj [("temp", .jint 999), ("number", .jint 1), ("name", .jstr "a")],
    .jobj [("temp", .jint 20), ("number", .jint 1), ("name", .jstr "b")]]),
  ("pitmaster", .jobj [("pm", .jarr [])])]

/-- A cached settings record used by the heap-model scenarios. -/
def recStored : Record :=
  ⟨"System settings", "2023-11-14T21:00:00+00:00", none, .jobj [("ap", .jstr "old")]⟩

/-- A heap holding one settings record at address 0 and the cached record
list `[0]` at address 5. -/
def heapStored : Heap := ⟨[(0, recStored)], [(5, [0])], 6⟩

/-- `heapStored` after the caller mutates the record object at address 0
(still reachable both from the caller's list and from the cache). -/
def heapMutated : Heap :=
  heapStored.setRec 0 { recStored with fields := .jobj [("ap", .jstr "new")] }

/-- The heap `prepareReplicatedPoints clk0 heapStored 5 1700000000`
produces: the deep copy of the stored record (re-stamped to `tsA`) at the
fresh address 6 and the new list `[6]` at the fresh address 7. -/
def heapRepl : Heap :=
  ⟨[(6, { recStored with time := tsA }), (0, recStored)], [(7, [6]), (5, [0])], 8⟩

/-- A `GlobalScope` with a previously cached settings record. -/
def gsPrev : GlobalScope := ⟨true, [recStored], ⟨[], []⟩⟩

/-! ## Lemmas about the builder loops -/

theorem chanStep_time (ts : String) (ch : JValue) (r : Record)
    (h : chanStep ts ch = some (some r)) : r.time = ts := by
  unfold chanStep at h
  split at h
  · cases h
  · split at h
    · cases h
    · cases h
    · split at h
      · cases h
      · split at h
        · cases h
        · injection h with h; injection h with h; subst h; rfl

theorem pmStep_time (ts : String) (pm : JValue) (r : Record)
    (h : pmStep ts pm = some r) : r.time = ts := by
  unfold pmStep at h
  split at h
  · cases h
  · injection h with h; subst h; rfl

theorem channelLoop_ok (ts : String) (chs : List JValue) :
    ∀ points : List Record, (∀ ch ∈ chs, (chanStep ts ch).isSome) →
      channelLoop points ts chs =
        .ok (points ++ chs.filterMap (fun ch => (chanStep ts ch).join)) := by
  induction chs with
  | nil => intro points _; simp [channelLoop]
  | cons ch rest ih =>
    intro points h
    have hch : (chanStep ts ch).isSome := h ch (by simp)
    cases hstep : chanStep ts ch with
    | none => rw [hstep] at hch; simp at hch
    | some o =>
      cases o with
      | none =>
        simp only [channelLoop, hstep, List.filterMap_cons, Option.join]
        exact ih points (fun c hc => h c (List.mem_cons_of_mem _ hc))
      | some r =>
        simp only [channelLoop, hstep, List.filterMap_cons, Option.join]
        rw [ih (points ++ [r]) (fun c hc => h c (List.mem_cons_of_mem _ hc))]
        simp

theorem pitmasterLoop_ok (ts : String) (pms : List JValue) :
    ∀ points : List Record, (∀ pm ∈ pms, (pmStep ts pm).isSome) →
      pitmasterLoop points ts pms =
        .ok (points ++ pms.filterMap (pmStep ts)) := by
  induction pms with
  | nil => intro points _; simp [pitmasterLoop]
  | cons pm rest ih =>
    intro points h
    have hpm : (pmStep ts pm).isSome := h pm (by simp)
    cases hstep : pmStep ts pm with
    | none => rw [hstep] at hpm; simp at hpm
    | some r =>
      simp only [pitmasterLoop, hstep, List.filterMap_cons]
      rw [ih (points ++ [r]) (fun c hc => h c (List.mem_cons_of_mem _ hc))]
      simp

theorem channelLoop_mem_time (ts : String) (chs : List JValue) :
    ∀ (points : List Record) (r : Record),
      r ∈ exceptPoints (channelLoop points ts chs) → r ∈ points ∨ r.time = ts := by
  induction chs with
  | nil => intro points r hr; exact Or.inl hr
  | cons ch rest ih =>
    intro points r hr
    cases hstep : chanStep ts ch with
    | none =>
      rw [channelLoop, hstep] at hr
      exact Or.inl hr
    | some o =>
      cases o with
      | none =>
        rw [channelLoop, hstep] at hr
        exact ih points r hr
      | some rec =>
        rw [channelLoop, hstep] at hr
        rcases ih (points ++ [rec]) r hr with hmem | htime
        · rcases List.mem_append.mp hmem with hp | hs
          · exact Or.inl hp
          · right
            rw [List.mem_singleton.mp hs]
            exact chanStep_time ts ch rec hstep
        · exact Or.inr htime

theorem pitmasterLoop_mem_time (ts : String) (pms : List JValue) :
    ∀ (points : List Record) (r : Record),
      r ∈ exceptPoints (pitmasterLoop points ts pms) → r ∈ points ∨ r.time = ts := by
  induction pms with
  | nil => intro points r hr; exact Or.inl hr
  | cons pm rest ih =>
    intro points r hr
    cases hstep : pmStep ts pm with
    | none =>
      rw [pitmasterLoop, hstep] at hr
      exact Or.inl hr
    | some rec =>
      rw [pitmasterLoop, hstep] at hr
      rcases ih (points ++ [rec]) r hr with hmem | htime
      · rcases List.mem_append.mp hmem with hp | hs
        · exact Or.inl hp
        · right
          rw [List.mem_singleton.mp hs]
          exact pmStep_time ts pm rec hstep
      · exact Or.inr htime

theorem createDataSystemPoints_mem_time (ts : String) (m : JValue) :
    ∀ (points : List Record) (r : Record),
      r ∈ exceptPoints (createDataSystemPoints points ts m) →
      r ∈ points ∨ r.time = ts := by
  intro points r hr
  unfold createDataSystemPoints at hr
  rcases hs : jGet m "system" with _ | sys
  · rw [hs] at hr
    exact Or.inl hr
  · rw [hs] at hr
    simp only [exceptPoints] at hr
    rcases List.mem_append.mp hr with hp | hone
    · exact Or.inl hp
    · right
      rw [List.mem_singleton.mp hone]

theorem createDataChannelPoints_mem_time (ts : String) (m : JValue) :
    ∀ (points : List Record) (r : Record),
      r ∈ exceptPoints (createDataChannelPoints points ts m) →
      r ∈ points ∨ r.time = ts := by
  intro points r hr
  unfold createDataChannelPoints at hr
  rcases hs : jGet m "channel" with _ | chv
  · rw [hs] at hr; exact Or.inl hr
  · simp only [hs] at hr
    rcases hi : pyIter chv with _ | chs
    · simp only [hi] at hr; exact Or.inl hr
    · simp only [hi] at hr
      exact channelLoop_mem_time ts chs points r hr

theorem createDataPitmasterPoints_mem_time (ts : String) (m : JValue) :
    ∀ (points : List Record) (r : Record),
      r ∈ exceptPoints (createDataPitmasterPoints points ts m) →
      r ∈ points ∨ r.time = ts := by
  intro points r hr
  unfold createDataPitmasterPoints at hr
  rcases hs : jGet m "pitmaster" with _ | pmv
  · rw [hs] at hr; exact Or.inl hr
  · simp only [hs] at hr
    rcases h2 : jGet pmv "pm" with _ | pmsv
    · simp only [h2] at hr; exact Or.inl hr
    · simp only [h2] at hr
      rcases hi : pyIter pmsv with _ | pms
      · simp only [hi] at hr; exact Or.inl hr
      · simp only [hi] at hr
        exact pitmasterLoop_mem_time ts pms points r hr

/-- Every record `createDataPoints` returns carries the one normalized
timestamp of the message — including the partial lists an exception leaves
behind. -/
theorem createDataPoints_mem_time (clk : Clock) (m : JValue) (t : Int) (ts : String)
    (ht : systemTimeInt m = some t) (hts : getTimestampStr clk t = some ts) :
    ∀ r ∈ createDataPoints clk m, r.time = ts := by
  intro r hr
  simp only [createDataPoints, ht, hts] at hr
  cases h1 : createDataSystemPoints [] ts m with
  | error p =>
    simp only [h1] at hr
    have := createDataSystemPoints_mem_time ts m [] r (by rw [h1]; exact hr)
    simpa using this
  | ok p1 =>
    simp only [h1] at hr
    have hp1 : ∀ x ∈ p1, x.time = ts := by
      intro x hx
      have := createDataSystemPoints_mem_time ts m [] x (by rw [h1]; exact hx)
      simpa using this
    cases h2 : createDataChannelPoints p1 ts m with
    | error p =>
      simp only [h2] at hr
      rcases createDataChannelPoints_mem_time ts m p1 r (by rw [h2]; exact hr) with hm | htime
      · exact hp1 r hm
      · exact htime
    | ok p2 =>
      simp only [h2] at hr
      have hp2 : ∀ x ∈ p2, x.time = ts := by
        intro x hx
        rcases createDataChannelPoints_mem_time ts m p1 x (by rw [h2]; exact hx) with hm | htime
        · exact hp1 x hm
        · exact htime
      rcases createDataPitmasterPoints_mem_time ts m p2 r hr with hm | htime
      · exact hp2 r hm
      · exact htime

/-- Every record `createSettingsPoints` returns carries the normalized
timestamp of the message. -/
theorem createSettingsPoints_mem_time (clk : Clock) (m : JValue) (t : Int) (ts : String)
    (ht : systemTimeInt m = some t) (hts : getTimestampStr clk t = some ts) :
    ∀ r ∈ createSettingsPoints clk m, r.time = ts := by
  intro r hr
  simp only [createSettingsPoints, ht, hts] at hr
  unfold createSettingsSystemPoints at hr
  rcases hs : jGet m "system" with _ | sys
  · rw [hs] at hr
    simp [exceptPoints] at hr
  · rw [hs] at hr
    simp only [exceptPoints] at hr
    rcases List.mem_singleton.mp (by simpa using hr) with rfl
    rfl

/-! ## Measurement-name disjointness -/

theorem channel_name_ne_system (x : String) : "Channel " ++ x ≠ "System" := by
  intro h
  have hlen := congrArg String.length h
  rw [String.length_append] at hlen
  have h8 : ("Channel " : String).length = 8 := rfl
  have h6 : ("System" : String).length = 6 := rfl
  omega

theorem channel_name_ne_pitmaster (x y : String) :
    "Channel " ++ x ≠ "Pitmaster " ++ y := by
  intro h
  have hd := congrArg String.data h
  rw [String.data_append, String.data_append] at hd
  have h1 : "Channel ".data = ['C', 'h', 'a', 'n', 'n', 'e', 'l', ' '] := rfl
  have h2 : "Pitmaster ".data = ['P', 'i', 't', 'm', 'a', 's', 't', 'e', 'r', ' '] := rfl
  rw [h1, h2] at hd
  injection hd with hc _
  exact absurd hc (by decide)

/-! ## Characterizing the channel loop body -/

theorem chanStep_some_none (ts : String) (ch : JValue)
    (h : chanStep ts ch = some none) : chanActive ch = false := by
  unfold chanStep at h
  rcases ht : jGet ch "temp" with _ | temp
  · simp only [ht] at h; cases h
  · simp only [ht] at h
    rcases hlt : pyLtInt temp 999 with _ | b
    · simp only [hlt] at h; cases h
    · simp only [hlt] at h
      cases b with
      | false => simp [chanActive, ht, hlt]
      | true =>
        exfalso
        rcases hn : jGet ch "number" with _ | num
        · simp only [hn] at h; cases h
        · simp only [hn] at h
          rcases hm : jGet ch "name" with _ | nm
          · simp only [hm] at h; cases h
          · simp only [hm] at h; simp at h

theorem chanStep_some_some (ts : String) (ch : JValue) (r : Record)
    (h : chanStep ts ch = some (some r)) :
    chanActive ch = true ∧ chanMeasurement ch = some r.measurement := by
  unfold chanStep at h
  rcases ht : jGet ch "temp" with _ | temp
  · simp only [ht] at h; cases h
  · simp only [ht] at h
    rcases hlt : pyLtInt temp 999 with _ | b
    · simp only [hlt] at h; cases h
    · simp only [hlt] at h
      cases b with
      | false => simp at h
      | true =>
        rcases hn : jGet ch "number" with _ | num
        · simp only [hn] at h; cases h
        · simp only [hn] at h
          rcases hm : jGet ch "name" with _ | nm
          · simp only [hm] at h; cases h
          · simp only [hm] at h
            injection h with h; injection h with h
            subst h
            constructor
            · simp [chanActive, ht, hlt]
            · unfold chanMeasurement
              rw [hn]
              rfl

theorem chanStep_isSome_elim (ts : String) (ch : JValue)
    (h : (chanStep ts ch).isSome) :
    chanStep ts ch = some none ∨ ∃ r, chanStep ts ch = some (some r) := by
  rcases hs : chanStep ts ch with _ | o
  · rw [hs] at h; simp at h
  · cases o with
    | none => exact Or.inl rfl
    | some r => exact Or.inr ⟨r, rfl⟩

/-! ## The record list a successful data build produces -/

/-- Shared structure lemma: when every stage of the data build succeeds,
the output is one System record, then the active channels' records in
message order, then the pitmaster records in message order. -/
theorem createDataPoints_eq_structure
    (clk : Clock) (m sys : JValue) (t : Int) (ts : String)
    (chv : JValue) (chs : List JValue) (pmv pmsv : JValue) (pms : List JValue)
    (hsys : jGet m "system" = some sys)
    (ht : systemTimeInt m = some t)
    (hts : getTimestampStr clk t = some ts)
    (hch : jGet m "channel" = some chv)
    (hchI : pyIter chv = some chs)
    (hchOk : ∀ ch ∈ chs, (chanStep ts ch).isSome)
    (hpm : jGet m "pitmaster" = some pmv)
    (hpm2 : jGet pmv "pm" = some pmsv)
    (hpmI : pyIter pmsv = some pms)
    (hpmOk : ∀ pm ∈ pms, (pmStep ts pm).isSome) :
    createDataPoints clk m =
      ⟨"System", ts, none, sys⟩ ::
        (chs.filterMap (fun ch => (chanStep ts ch).join) ++
          pms.filterMap (pmStep ts)) := by
  have hC := channelLoop_ok ts chs [⟨"System", ts, none, sys⟩] hchOk
  have hP := pitmasterLoop_ok ts pms
    ([⟨"System", ts, none, sys⟩] ++ chs.filterMap (fun ch => (chanStep ts ch).join)) hpmOk
  simp only [createDataPoints, ht, hts, createDataSystemPoints, hsys,
    List.nil_append, createDataChannelPoints, hch, hchI, hC,
    createDataPitmasterPoints, hpm, hpm2, hpmI, hP, exceptPoints]
  simp

/-! ## Counting records by measurement name -/

theorem countMeasurement_append (l1 l2 : List Record) (nm : String) :
    countMeasurement (l1 ++ l2) nm = countMeasurement l1 nm + countMeasurement l2 nm := by
  simp [countMeasurement, List.filter_append]

theorem countMeasurement_eq_zero (points : List Record) (nm : String)
    (h : ∀ r ∈ points, r.measurement ≠ nm) : countMeasurement points nm = 0 := by
  unfold countMeasurement
  rw [List.length_eq_zero, List.filter_eq_nil_iff]
  intro r hr hp
  exact h r hr (by simpa using hp)

/-- The number of records with measurement `nm` the channel loop appends
equals the number of channels that are active and carry that name. -/
theorem countMeasurement_filterMap_chan (ts nm : String) (chs : List JValue)
    (hok : ∀ ch ∈ chs, (chanStep ts ch).isSome) :
    countMeasurement (chs.filterMap (fun ch => (chanStep ts ch).join)) nm =
      (chs.filter (fun c => chanMeasurement c == some nm && chanActive c)).length := by
  induction chs with
  | nil => rfl
  | cons c rest ih =>
    have hrec := ih (fun c2 h2 => hok c2 (List.mem_cons_of_mem _ h2))
    simp only [countMeasurement, Option.join] at hrec
    have hc := hok c (by simp)
    rcases chanStep_isSome_elim ts c hc with hnone | ⟨r, hsome⟩
    · have hact := chanStep_some_none ts c hnone
      have hp : (chanMeasurement c == some nm && chanActive c) = false := by
        rw [hact]; exact Bool.and_false _
      simp only [List.filterMap_cons, hnone, Option.join, countMeasurement,
        List.filter, hp]
      exact hrec
    · obtain ⟨hact, hmeas⟩ := chanStep_some_some ts c r hsome
      by_cases heq : r.measurement = nm
      · have hq : (r.measurement == nm) = true := by
          rw [heq]; exact beq_self_eq_true nm
        have hp : (chanMeasurement c == some nm && chanActive c) = true := by
          rw [hmeas, heq, hact, Bool.and_true]; exact beq_self_eq_true _
        simp only [List.filterMap_cons, hsome, Option.join, countMeasurement,
          List.filter, hq, hp, List.length_cons]
        omega
      · have hq : (r.measurement == nm) = false := beq_eq_false_iff_ne.mpr heq
        have hp : (chanMeasurement c == some nm && chanActive c) = false := by
          rw [hmeas]
          have hb : (some r.measurement == some nm) = false :=
            beq_eq_false_iff_ne.mpr (by simpa using heq)
          rw [hb]; exact Bool.false_and _
        simp only [List.filterMap_cons, hsome, Option.join, countMeasurement,
          List.filter, hq, hp]
        exact hrec

/-- With pairwise-distinct channel measurement names, the channels that are
both named `nm` and active are exactly one (when `ch` is active) or none
(when `ch` is inactive). -/
theorem filter_name_unique (nm : String) (chs : List JValue) (ch : JValue)
    (hmem : ch ∈ chs) (hnm : chanMeasurement ch = some nm)
    (hnodup : (chs.filterMap chanMeasurement).Nodup) :
    (chs.filter (fun c => chanMeasurement c == some nm && chanActive c)).length =
      if chanActive ch then 1 else 0 := by
  induction chs with
  | nil => cases hmem
  | cons c rest ih =>
    rcases hc : chanMeasurement c with _ | x
    · have hne : ch ≠ c := by
        intro he; rw [he, hc] at hnm; cases hnm
      have hmem2 : ch ∈ rest := by
        rcases List.mem_cons.mp hmem with he | hr
        · exact absurd he hne
        · exact hr
      have hnodup2 : (rest.filterMap chanMeasurement).Nodup := by
        simpa only [List.filterMap_cons, hc] using hnodup
      have hp : (chanMeasurement c == some nm && chanActive c) = false := by
        rw [hc]; rfl
      simp only [List.filter, hp]
      exact ih hmem2 hnodup2
    · simp only [List.filterMap_cons, hc] at hnodup
      have hx := List.nodup_cons.mp hnodup
      rcases List.mem_cons.mp hmem with he | hr
      · have hxnm : x = nm := by
          rw [he, hc] at hnm
          injection hnm
        have hrest0 :
            rest.filter (fun c => chanMeasurement c == some nm && chanActive c) = [] := by
          rw [List.filter_eq_nil_iff]
          intro c2 hc2 hp2
          have hname : chanMeasurement c2 = some nm :=
            eq_of_beq ((Bool.and_eq_true _ _).mp hp2).1
          apply hx.1
          rw [hxnm]
          exact List.mem_filterMap.mpr ⟨c2, hc2, hname⟩
        have hcact : chanActive c = chanActive ch := by rw [he]
        cases hact : chanActive ch with
        | false =>
          have hp : (chanMeasurement c == some nm && chanActive c) = false := by
            rw [hcact, hact]; exact Bool.and_false _
          simp only [List.filter, hp]
          rw [hrest0]
          simp
        | true =>
          have hp : (chanMeasurement c == some nm && chanActive c) = true := by
            rw [hc, hxnm, hcact, hact, Bool.and_true]
            exact beq_self_eq_true _
          simp only [List.filter, hp, List.length_cons]
          rw [hrest0]
          simp
      · have hxne : x ≠ nm := by
          intro he2
          apply hx.1
          rw [he2]
          exact List.mem_filterMap.mpr ⟨ch, hr, hnm⟩
        have hp : (chanMeasurement c == some nm && chanActive c) = false := by
          rw [hc]
          have hb : (some x == some nm) = false :=
            beq_eq_false_iff_ne.mpr (by simpa using hxne)
          rw [hb]; exact Bool.false_and _
        simp only [List.filter, hp]
        exact ih hr hx.2

/-- Every record the pitmaster loop appends is named `"Pitmaster {id}"`. -/
theorem pmStep_shape (ts : String) (pm : JValue) (r : Record)
    (h : pmStep ts pm = some r) :
    ∃ pmId, jGet pm "id" = some pmId ∧ r.measurement = "Pitmaster " ++ pyFormat pmId := by
  unfold pmStep at h
  rcases hi : jGet pm "id" with _ | pmId
  · simp only [hi] at h; cases h
  · simp only [hi] at h
    injection h with h
    subst h
    exact ⟨pmId, rfl, rfl⟩

/-! ## Heap lemmas for the settings replicator -/

theorem lookupRecs_congr (h1 h2 : Heap) (l : List Nat)
    (he : ∀ a ∈ l, h1.getRec a = h2.getRec a) :
    lookupRecs h1 l = lookupRecs h2 l := by
  induction l with
  | nil => rfl
  | cons a rest ih =>
    have ha := he a (by simp)
    have hr := ih (fun b hb => he b (List.mem_cons_of_mem _ hb))
    simp only [lookupRecs, ha, hr]

theorem allocRec_getRec_lt (h : Heap) (r : Record) (b : Nat) (hb : b < h.fresh) :
    (h.allocRec r).1.getRec b = h.getRec b := by
  simp [Heap.allocRec, Heap.getRec, alookup, Nat.ne_of_lt hb]

theorem allocRec_getRec_self (h : Heap) (r : Record) :
    (h.allocRec r).1.getRec h.fresh = some r := by
  simp [Heap.allocRec, Heap.getRec, alookup]

theorem allocRecs_spec (rs : List Record) : ∀ h : Heap,
    (h.allocRecs rs).1.fresh = h.fresh + rs.length ∧
    (∀ b, b < h.fresh →
      (h.allocRecs rs).1.getRec b = h.getRec b ∧
      (h.allocRecs rs).1.getList b = h.getList b) ∧
    lookupRecs (h.allocRecs rs).1 (h.allocRecs rs).2 = some rs ∧
    (∀ a ∈ (h.allocRecs rs).2, h.fresh ≤ a) := by
  induction rs with
  | nil =>
    intro h
    refine ⟨rfl, fun b _ => ⟨rfl, rfl⟩, rfl, ?_⟩
    intro a ha
    cases ha
  | cons r rest ih =>
    intro h
    obtain ⟨ihf, ihpres, ihmap, ihmem⟩ := ih (h.allocRec r).1
    have hfr : (h.allocRec r).1.fresh = h.fresh + 1 := rfl
    constructor
    · show ((h.allocRec r).1.allocRecs rest).1.fresh = h.fresh + (rest.length + 1)
      rw [ihf, hfr]
      omega
    constructor
    · intro b hb
      have hb1 : b < (h.allocRec r).1.fresh := by rw [hfr]; omega
      obtain ⟨hrec, hlist⟩ := ihpres b hb1
      refine ⟨?_, ?_⟩
      · show ((h.allocRec r).1.allocRecs rest).1.getRec b = h.getRec b
        rw [hrec, allocRec_getRec_lt h r b hb]
      · show ((h.allocRec r).1.allocRecs rest).1.getList b = h.getList b
        rw [hlist]
        rfl
    constructor
    · show lookupRecs ((h.allocRec r).1.allocRecs rest).1
        ((h.allocRec r).2 :: ((h.allocRec r).1.allocRecs rest).2) = some (r :: rest)
      have hself : ((h.allocRec r).1.allocRecs rest).1.getRec (h.allocRec r).2 = some r := by
        have hlt : (h.allocRec r).2 < (h.allocRec r).1.fresh := by
          show h.fresh < h.fresh + 1
          omega
        rw [(ihpres (h.allocRec r).2 hlt).1]
        exact allocRec_getRec_self h r
      simp only [lookupRecs, hself, ihmap]
    · intro a ha
      rcases List.mem_cons.mp ha with he | hrest
      · rw [he]
        exact Nat.le_refl _
      · have := ihmem a hrest
        rw [hfr] at this
        omega

theorem allocList_spec (h : Heap) (elems : List Nat) :
    (h.allocList elems).1.fresh = h.fresh + 1 ∧
    (h.allocList elems).2 = h.fresh ∧
    (h.allocList elems).1.getList h.fresh = some elems ∧
    (∀ b, b < h.fresh → (h.allocList elems).1.getList b = h.getList b) ∧
    (∀ b, (h.allocList elems).1.getRec b = h.getRec b) := by
  refine ⟨rfl, rfl, ?_, ?_, fun b => rfl⟩
  · simp [Heap.allocList, Heap.getList, alookup]
  · intro b hb
    simp [Heap.allocList, Heap.getList, alookup, Nat.ne_of_lt hb]

/-- Shared frame lemma: a successful `prepareReplicatedPoints` call leaves
every pre-existing heap object untouched and hands back a freshly
allocated list. -/
theorem prepareReplicatedPoints_frame (clk : Clock) (h : Heap) (pa : Nat) (t : Int)
    (h2 : Heap) (a2 : Nat)
    (hrep : prepareReplicatedPoints clk h pa t = some (h2, a2)) :
    (∀ b, b < h.fresh → h2.getRec b = h.getRec b ∧ h2.getList b = h.getList b) ∧
    h.fresh ≤ a2 := by
  unfold prepareReplicatedPoints at hrep
  rcases hl : h.getList pa with _ | addrs
  · rw [hl] at hrep
    cases hrep
  · simp only [hl] at hrep
    by_cases hlen : addrs.length > 0
    · rw [if_pos hlen] at hrep
      rcases hm : lookupRecs h addrs with _ | rs
      · rw [hm] at hrep
        cases hrep
      · simp only [hm] at hrep
        rcases hts : getTimestampStr clk t with _ | ts
        · rw [hts] at hrep
          cases hrep
        · simp only [hts] at hrep
          injection hrep with hrep
          have hA : ((h.allocRecs (rs.map (fun r => { r with time := ts }))).1.allocList
              (h.allocRecs (rs.map (fun r => { r with time := ts }))).2).1 = h2 :=
            congrArg Prod.fst hrep
          have hB : ((h.allocRecs (rs.map (fun r => { r with time := ts }))).1.allocList
              (h.allocRecs (rs.map (fun r => { r with time := ts }))).2).2 = a2 :=
            congrArg Prod.snd hrep
          obtain ⟨haf, hapres, hamap, hamem⟩ :=
            allocRecs_spec (rs.map (fun r => { r with time := ts })) h
          obtain ⟨hlf, hla, hlnew, hlpres, hlrec⟩ :=
            allocList_spec (h.allocRecs (rs.map (fun r => { r with time := ts }))).1
              (h.allocRecs (rs.map (fun r => { r with time := ts }))).2
          constructor
          · intro b hb
            rw [← hA]
            constructor
            · rw [hlrec b]
              exact (hapres b hb).1
            · rw [hlpres b (by rw [haf]; omega)]
              exact (hapres b hb).2
          · rw [← hB, hla, haf]
            omega
    · rw [if_neg hlen] at hrep
      injection hrep with hrep
      have hA : (h.allocList []).1 = h2 := congrArg Prod.fst hrep
      have hB : (h.allocList []).2 = a2 := congrArg Prod.snd hrep
      obtain ⟨hlf, hla, hlnew, hlpres, hlrec⟩ := allocList_spec h []
      constructor
      · intro b hb
        rw [← hA]
        exact ⟨hlrec b, hlpres b hb⟩
      · rw [← hB, hla]

/-- Claim C3 (confirmed): for every cached settings-record list and every
data timestamp, `prepareReplicatedPoints` succeeds and returns a freshly
allocated list of deep copies of the cached records in which every
record's `time` equals the Timestamp Normalizer applied to the data
timestamp and all other content equals the cached records; it returns an
empty list when the cache is empty; and it never mutates the cache (every
pre-existing heap object is untouched). -/
theorem prepareReplicatedPoints_correct (clk : Clock) (h : Heap) (pa : Nat) (t : Int)
    (addrs : List Nat) (rs : List Record) (ts : String)
    (hca : h.getList pa = some addrs)
    (hrs : lookupRecs h addrs = some rs)
    (hts : getTimestampStr clk t = some ts) :
    ∃ h2 a2, prepareReplicatedPoints clk h pa t = some (h2, a2) ∧
      (∃ newAddrs, h2.getList a2 = some newAddrs ∧
        lookupRecs h2 newAddrs = some (rs.map (fun r => { r with time := ts })) ∧
        (∀ a ∈ newAddrs, h.fresh ≤ a)) ∧
      (addrs = [] → h2.getList a2 = some []) ∧
      (∀ b, b < h.fresh → h2.getRec b = h.getRec b ∧ h2.getList b = h.getList b) ∧
      h.fresh ≤ a2 := by
  by_cases hlen : addrs.length > 0
  · have hstep : prepareReplicatedPoints clk h pa t =
        some (((h.allocRecs (rs.map (fun r => { r with time := ts }))).1.allocList
                (h.allocRecs (rs.map (fun r => { r with time := ts }))).2).1,
              ((h.allocRecs (rs.map (fun r => { r with time := ts }))).1.allocList
                (h.allocRecs (rs.map (fun r => { r with time := ts }))).2).2) := by
      unfold prepareReplicatedPoints
      simp only [hca]
      rw [if_pos hlen]
      simp only [hrs, hts]
    obtain ⟨haf, hapres, hamap, hamem⟩ :=
      allocRecs_spec (rs.map (fun r => { r with time := ts })) h
    obtain ⟨hlf, hla, hlnew, hlpres, hlrec⟩ :=
      allocList_spec (h.allocRecs (rs.map (fun r => { r with time := ts }))).1
        (h.allocRecs (rs.map (fun r => { r with time := ts }))).2
    obtain ⟨hpres, hle⟩ := prepareReplicatedPoints_frame clk h pa t _ _ hstep
    refine ⟨_, _, hstep,
      ⟨(h.allocRecs (rs.map (fun r => { r with time := ts }))).2, ?_, ?_, hamem⟩,
      ?_, hpres, hle⟩
    · rw [hla]
      exact hlnew
    · rw [lookupRecs_congr _ _ _ (fun a _ => hlrec a)]
      exact hamap
    · intro he
      rw [he] at hlen
      simp at hlen
  · have he : addrs = [] := List.length_eq_zero.mp (by omega)
    subst he
    have hrs2 : ([] : List Record) = rs := by
      have h0 : lookupRecs h [] = some [] := rfl
      injection (h0.symm.trans hrs)
    rw [← hrs2]
    have hstep : prepareReplicatedPoints clk h pa t =
        some ((h.allocList []).1, (h.allocList []).2) := by
      unfold prepareReplicatedPoints
      simp only [hca]
      rw [if_neg hlen]
    obtain ⟨hlf, hla, hlnew, hlpres, hlrec⟩ := allocList_spec h []
    obtain ⟨hpres, hle⟩ := prepareReplicatedPoints_frame clk h pa t _ _ hstep
    refine ⟨_, _, hstep, ⟨[], ?_, rfl, ?_⟩, fun _ => ?_, hpres, hle⟩
    · rw [hla]
      exact hlnew
    · intro a ha
      cases ha
    · rw [hla]
      exact hlnew

/-! ## Claim theorems -/

/-- Claim C1 (corrected), counterexample: a message whose `system` section
is valid but which lacks the `channel` key makes the build raise after the
System record was appended, and `createDataPoints` returns that one-record
partial list rather than the empty list the claim demands. -/
theorem incomplete_list_counterexample :
    createDataPoints clk0 msgNoChannel =
      [⟨"System", tsA, none, .jobj [("time", .jint 1700000000)]⟩] ∧
    jGet msgNoChannel "channel" = none ∧
    createDataPoints clk0 msgNoChannel ≠ [] := by
  refine ⟨rfl, rfl, ?_⟩
  intro hx
  have h2 : ([(⟨"System", tsA, none, .jobj [("time", .jint 1700000000)]⟩ : Record)] :
      List Record) = [] :=
    (show createDataPoints clk0 msgNoChannel =
        [(⟨"System", tsA, none, .jobj [("time", .jint 1700000000)]⟩ : Record)]
      from rfl).symm.trans hx
  cases h2

/-- Claim C1 (corrected, amended): a failure before any record is appended
— `int(message['system']['time'])` failing, or the timestamp conversion
raising — makes both builders return the empty list, and
`createSettingsPoints` is all-or-nothing (empty list or exactly the one
settings record); a later failure in `createDataPoints`, however, returns
the partial prefix built so far, as the counterexample shows. -/
theorem build_abort_amended :
    (∀ (clk : Clock) (m : JValue), systemTimeInt m = none →
      createDataPoints clk m = [] ∧ createSettingsPoints clk m = []) ∧
    (∀ (clk : Clock) (m : JValue) (t : Int), systemTimeInt m = some t →
      getTimestampStr clk t = none →
      createDataPoints clk m = [] ∧ createSettingsPoints clk m = []) ∧
    (∀ (clk : Clock) (m : JValue), createSettingsPoints clk m = [] ∨
      ∃ ts sys, jGet m "system" = some sys ∧
        createSettingsPoints clk m = [⟨"System settings", ts, none, sys⟩]) := by
  refine ⟨?_, ?_, ?_⟩
  · intro clk m h
    exact ⟨by simp only [createDataPoints, h], by simp only [createSettingsPoints, h]⟩
  · intro clk m t h h2
    exact ⟨by simp only [createDataPoints, h, h2],
           by simp only [createSettingsPoints, h, h2]⟩
  · intro clk m
    rcases ht : systemTimeInt m with _ | t
    · left
      simp only [createSettingsPoints, ht]
    · rcases hts : getTimestampStr clk t with _ | ts
      · left
        simp only [createSettingsPoints, ht, hts]
      · rcases hs : jGet m "system" with _ | sys
        · left
          simp only [createSettingsPoints, ht, hts, createSettingsSystemPoints, hs,
            exceptPoints]
        · right
          refine ⟨ts, sys, rfl, ?_⟩
          simp only [createSettingsPoints, ht, hts, createSettingsSystemPoints, hs,
            exceptPoints, List.nil_append]

theorem build_abort_amended_witness :
    createDataPoints clk0 msgBadTime = [] ∧ createSettingsPoints clk0 msgBadTime = [] :=
  build_abort_amended.1 clk0 msgBadTime (by rfl)

/-- Claim C2 (corrected), counterexample: line 172 stores a reference, not
a deep copy.  After `store` of the list at address 5, mutating the record
object at address 0 — still reachable through the caller's list — changes
what a later `prepareReplicatedPoints` on the cache returns. -/
theorem store_alias_counterexample :
    (storeSettings ⟨0⟩ 5).lastSettingsPoints = 5 ∧
    replicatedRecords clk0 heapStored 5 1700000000 =
      some [⟨"System settings", tsA, none, .jobj [("ap", .jstr "old")]⟩] ∧
    replicatedRecords clk0 heapMutated 5 1700000000 =
      some [⟨"System settings", tsA, none, .jobj [("ap", .jstr "new")]⟩] ∧
    replicatedRecords clk0 heapMutated 5 1700000000 ≠
      replicatedRecords clk0 heapStored 5 1700000000 := by
  refine ⟨rfl, rfl, rfl, ?_⟩
  intro hcontra
  have e1 : replicatedRecords clk0 heapMutated 5 1700000000 =
      some [(⟨"System settings", tsA, none, .jobj [("ap", .jstr "new")]⟩ : Record)] := rfl
  have e2 : replicatedRecords clk0 heapStored 5 1700000000 =
      some [(⟨"System settings", tsA, none, .jobj [("ap", .jstr "old")]⟩ : Record)] := rfl
  have h2 := e1.symm.trans (hcontra.trans e2)
  simp at h2

/-- Claim C2 (corrected, amended): the cache aliases the caller's list, so
store-side isolation fails; what does hold is replicate-side isolation —
`prepareReplicatedPoints` on a stored cache address never mutates any
pre-existing object (the cached list and records included) and returns a
freshly allocated list. -/
theorem store_isolation_amended (clk : Clock) (h : Heap) (gs : GlobalScopeH)
    (pointsAddr : Nat) (t : Int) (h2 : Heap) (a2 : Nat)
    (hrep : prepareReplicatedPoints clk h
      (storeSettings gs pointsAddr).lastSettingsPoints t = some (h2, a2)) :
    (∀ b, b < h.fresh → h2.getRec b = h.getRec b ∧ h2.getList b = h.getList b) ∧
    h.fresh ≤ a2 :=
  prepareReplicatedPoints_frame clk h pointsAddr t h2 a2 hrep

theorem store_isolation_amended_witness :
    heapRepl.getRec 0 = heapStored.getRec 0 ∧
    heapRepl.getList 5 = heapStored.getList 5 ∧
    heapStored.fresh ≤ 7 := by
  have h := store_isolation_amended clk0 heapStored ⟨0⟩ 5 1700000000 heapRepl 7 rfl
  exact ⟨(h.1 0 (by decide)).1, (h.1 5 (by decide)).2, h.2⟩

theorem prepareReplicatedPoints_correct_witness :
    (prepareReplicatedPoints clk0 heapStored 5 1700000000).isSome = true := by
  obtain ⟨h2, a2, hrep, _⟩ :=
    prepareReplicatedPoints_correct clk0 heapStored 5 1700000000 [0] [recStored] tsA
      rfl rfl rfl
  rw [hrep]
  rfl

/-- Claim C4 (corrected), counterexample: `datetime.fromtimestamp` raises
for timestamps at or beyond year 10000, so `getTimestampStr` can fail on
an integer input; 253402300800 is 10000-01-01 00:00:00 UTC. -/
theorem timestamp_overflow_counterexample :
    getTimestampStr clk0 253402300800 = none := rfl

/-- Claim C4 (corrected, amended): `getTimestampStr` returns a timestamp
string on every integer input that either takes the internal-clock branch
(below 631152000) or lands within `datetime`'s representable civil range
in local time. -/
theorem getTimestampStr_total_in_range (clk : Clock) (t : Int)
    (h : t < 631152000 ∨
      (minDatetimeSeconds ≤ t + clk.tzOffset ∧
        t + clk.tzOffset < maxDatetimeSecondsExclusive)) :
    ∃ s, getTimestampStr clk t = some s := by
  unfold getTimestampStr
  rcases h with h1 | h2
  · rw [if_pos h1]
    exact ⟨_, rfl⟩
  · by_cases h1 : t < 631152000
    · rw [if_pos h1]
      exact ⟨_, rfl⟩
    · rw [if_neg h1, if_pos h2]
      exact ⟨_, rfl⟩

theorem getTimestampStr_total_in_range_witness :
    (getTimestampStr clk0 1700000000).isSome = true := by
  obtain ⟨s, hs⟩ := getTimestampStr_total_in_range clk0 1700000000 (Or.inr (by decide))
  rw [hs]
  rfl

/-- Claim C8 (confirmed): for all Unix timestamps below 631152000 the
normalizer's output is derived from the receive wall clock alone — two
runs with different sub-threshold inputs but the same clock reading
produce the same output. -/
theorem internal_time_independent (clk : Clock) (t1 t2 : Int)
    (h1 : t1 < 631152000) (h2 : t2 < 631152000) :
    getTimestampStr clk t1 = getTimestampStr clk t2 := by
  unfold getTimestampStr
  rw [if_pos h1, if_pos h2]

theorem internal_time_independent_witness :
    getTimestampStr clk0 0 = getTimestampStr clk0 631151999 :=
  internal_time_independent clk0 0 631151999 (by decide) (by decide)

/-- Claim C5 (corrected), counterexample: two channels may share a number.
In `msgDup` both channels are named "Channel 1"; the first has
`temp = 999`, yet — because the second is active — a "Channel 1" record
still appears in the (successfully built) output, so "no record with that
channel's measurement name appears" fails as universally stated. -/
theorem channel_sentinel_counterexample :
    createDataPointsE clk0 msgDup =
      some [⟨"System", tsA, none, .jobj [("time", .jint 1700000000)]⟩,
            ⟨"Channel 1", tsA,
              some [("channel", .jstr "Channel 1"), ("alias", .jstr "b")],
              .jobj [("temp", .jint 20), ("number", .jint 1), ("name", .jstr "b")]⟩] ∧
    jGet (JValue.jobj [("temp", .jint 999), ("number", .jint 1), ("name", .jstr "a")])
      "temp" = some (.jint 999) ∧
    chanMeasurement (JValue.jobj [("temp", .jint 999), ("number", .jint 1),
      ("name", .jstr "a")]) = some "Channel 1" ∧
    countMeasurement (createDataPoints clk0 msgDup) "Channel 1" = 1 :=
  ⟨rfl, rfl, rfl, rfl⟩

/-- Claim C5 (corrected, amended): for a valid data message whose channel
measurement names are pairwise distinct, a channel with `temp` at or above
999 contributes no record with its measurement name and a channel with
`temp` below 999 contributes exactly one. -/
theorem channel_sentinel_amended
    (clk : Clock) (m sys : JValue) (t : Int) (ts : String)
    (chv : JValue) (chs : List JValue) (pmv pmsv : JValue) (pms : List JValue)
    (hsys : jGet m "system" = some sys)
    (ht : systemTimeInt m = some t)
    (hts : getTimestampStr clk t = some ts)
    (hch : jGet m "channel" = some chv)
    (hchI : pyIter chv = some chs)
    (hchOk : ∀ ch ∈ chs, (chanStep ts ch).isSome)
    (hpm : jGet m "pitmaster" = some pmv)
    (hpm2 : jGet pmv "pm" = some pmsv)
    (hpmI : pyIter pmsv = some pms)
    (hpmOk : ∀ pm ∈ pms, (pmStep ts pm).isSome)
    (hnodup : (chs.filterMap chanMeasurement).Nodup)
    (ch : JValue) (hmem : ch ∈ chs) (nm : String)
    (hnm : chanMeasurement ch = some nm) :
    countMeasurement (createDataPoints clk m) nm = if chanActive ch then 1 else 0 := by
  rcases hn : jGet ch "number" with _ | num
  · simp only [chanMeasurement, hn, Option.map] at hnm
    exact Option.noConfusion hnm
  · have hnmEq : "Channel " ++ pyFormat num = nm := by
      simp only [chanMeasurement, hn, Option.map] at hnm
      injection hnm
    rw [createDataPoints_eq_structure clk m sys t ts chv chs pmv pmsv pms
      hsys ht hts hch hchI hchOk hpm hpm2 hpmI hpmOk]
    have hcond : (("System" : String) == nm) = false :=
      beq_eq_false_iff_ne.mpr
        (fun he => channel_name_ne_system (pyFormat num) (hnmEq.trans he.symm))
    have hhead : countMeasurement
        ((⟨"System", ts, none, sys⟩ : Record) ::
          (chs.filterMap (fun c => (chanStep ts c).join) ++
            pms.filterMap (pmStep ts))) nm =
        countMeasurement (chs.filterMap (fun c => (chanStep ts c).join) ++
          pms.filterMap (pmStep ts)) nm := by
      unfold countMeasurement
      simp only [List.filter, hcond]
    rw [hhead, countMeasurement_append]
    have hpmzero : countMeasurement (pms.filterMap (pmStep ts)) nm = 0 := by
      apply countMeasurement_eq_zero
      intro r hr
      obtain ⟨pm, hpmm, hstep⟩ := List.mem_filterMap.mp hr
      obtain ⟨pmId, _, hshape⟩ := pmStep_shape ts pm r hstep
      rw [hshape, ← hnmEq]
      intro he
      exact channel_name_ne_pitmaster (pyFormat num) (pyFormat pmId) he.symm
    rw [hpmzero, Nat.add_zero, countMeasurement_filterMap_chan ts nm chs hchOk]
    exact filter_name_unique nm chs ch hmem hnm hnodup

theorem channel_sentinel_amended_witness :
    countMeasurement (createDataPoints clk0 msgA) "Channel 1" = 1 := by
  have h := channel_sentinel_amended clk0 msgA
    (JValue.jobj [("time", JValue.jint 1700000000)]) 1700000000 tsA
    (JValue.jarr [chanA]) [chanA]
    (JValue.jobj [("pm", JValue.jarr [JValue.jobj [("id", JValue.jint 1)]])])
    (JValue.jarr [JValue.jobj [("id", JValue.jint 1)]])
    [JValue.jobj [("id", JValue.jint 1)]]
    rfl rfl rfl rfl rfl
    (by intro c hc; rw [List.mem_singleton.mp hc]; rfl)
    rfl rfl rfl
    (by intro p hp; rw [List.mem_singleton.mp hp]; rfl)
    (by decide)
    chanA (by simp) "Channel 1" rfl
  rw [h]
  decide

/-- Claim C6 (confirmed): a successfully built data message yields, in
this order, exactly one System record (fields = the whole `system`
object), one record per active channel (measurement and `channel` tag
"Channel {number}", `alias` tag = the channel's name, fields = the whole
channel object, all inside `chanStep`), then one record per controller in
`pitmaster.pm` (fields = the controller object); scenario A below yields
exactly 3 records. -/
theorem data_build_output_structure
    (clk : Clock) (m sys : JValue) (t : Int) (ts : String)
    (chv : JValue) (chs : List JValue) (pmv pmsv : JValue) (pms : List JValue)
    (hsys : jGet m "system" = some sys)
    (ht : systemTimeInt m = some t)
    (hts : getTimestampStr clk t = some ts)
    (hch : jGet m "channel" = some chv)
    (hchI : pyIter chv = some chs)
    (hchOk : ∀ ch ∈ chs, (chanStep ts ch).isSome)
    (hpm : jGet m "pitmaster" = some pmv)
    (hpm2 : jGet pmv "pm" = some pmsv)
    (hpmI : pyIter pmsv = some pms)
    (hpmOk : ∀ pm ∈ pms, (pmStep ts pm).isSome) :
    createDataPoints clk m =
      ⟨"System", ts, none, sys⟩ ::
        (chs.filterMap (fun ch => (chanStep ts ch).join) ++
          pms.filterMap (pmStep ts)) :=
  createDataPoints_eq_structure clk m sys t ts chv chs pmv pmsv pms
    hsys ht hts hch hchI hchOk hpm hpm2 hpmI hpmOk

theorem data_build_output_structure_witness :
    createDataPoints clk0 msgA =
      [⟨"System", tsA, none, .jobj [("time", .jint 1700000000)]⟩,
       ⟨"Channel 1", tsA,
         some [("channel", .jstr "Channel 1"), ("alias", .jstr "Grill")], chanA⟩,
       ⟨"Pitmaster 1", tsA, none, .jobj [("id", .jint 1)]⟩] := by
  have h := data_build_output_structure clk0 msgA
    (JValue.jobj [("time", JValue.jint 1700000000)]) 1700000000 tsA
    (JValue.jarr [chanA]) [chanA]
    (JValue.jobj [("pm", JValue.jarr [JValue.jobj [("id", JValue.jint 1)]])])
    (JValue.jarr [JValue.jobj [("id", JValue.jint 1)]])
    [JValue.jobj [("id", JValue.jint 1)]]
    rfl rfl rfl rfl rfl
    (by intro c hc; rw [List.mem_singleton.mp hc]; rfl)
    rfl rfl rfl
    (by intro p hp; rw [List.mem_singleton.mp hp]; rfl)
  exact h.trans rfl

/-- Claim C7 (confirmed): all records within one list built by the Record
Builder — data or settings kind, partial lists included — share the same
`time` value. -/
theorem records_share_time (clk : Clock) (m : JValue) :
    (∀ r1 ∈ createDataPoints clk m, ∀ r2 ∈ createDataPoints clk m,
      r1.time = r2.time) ∧
    (∀ r1 ∈ createSettingsPoints clk m, ∀ r2 ∈ createSettingsPoints clk m,
      r1.time = r2.time) := by
  constructor
  · intro r1 h1 r2 h2
    rcases ht : systemTimeInt m with _ | t
    · simp only [createDataPoints, ht] at h1
      exact absurd h1 (List.not_mem_nil r1)
    · rcases hts : getTimestampStr clk t with _ | ts
      · simp only [createDataPoints, ht, hts] at h1
        exact absurd h1 (List.not_mem_nil r1)
      · rw [createDataPoints_mem_time clk m t ts ht hts r1 h1,
          createDataPoints_mem_time clk m t ts ht hts r2 h2]
  · intro r1 h1 r2 h2
    rcases ht : systemTimeInt m with _ | t
    · simp only [createSettingsPoints, ht] at h1
      exact absurd h1 (List.not_mem_nil r1)
    · rcases hts : getTimestampStr clk t with _ | ts
      · simp only [createSettingsPoints, ht, hts] at h1
        exact absurd h1 (List.not_mem_nil r1)
      · rw [createSettingsPoints_mem_time clk m t ts ht hts r1 h1,
          createSettingsPoints_mem_time clk m t ts ht hts r2 h2]

theorem records_share_time_witness :
    (⟨"System", tsA, none, JValue.jobj [("time", JValue.jint 1700000000)]⟩ : Record).time =
      (⟨"Pitmaster 1", tsA, none, JValue.jobj [("id", JValue.jint 1)]⟩ : Record).time := by
  have hlist : createDataPoints clk0 msgA =
      [⟨"System", tsA, none, .jobj [("time", .jint 1700000000)]⟩,
       ⟨"Channel 1", tsA,
         some [("channel", .jstr "Channel 1"), ("alias", .jstr "Grill")], chanA⟩,
       ⟨"Pitmaster 1", tsA, none, .jobj [("id", .jint 1)]⟩] := rfl
  refine (records_share_time clk0 msgA).1 _ ?_ _ ?_
  · rw [hlist]
    simp
  · rw [hlist]
    simp

/-- Claim C9 (confirmed): `addPointsToDatabase` is a no-op on an empty
record list (no `write_points` call); on a non-empty list it submits the
whole list as one batch; and a failing write is caught (the function
returns a plain state, no exception propagates) with nothing stored, so
later messages are processed against an intact connection state. -/
theorem addPointsToDatabase_contract (fails : Bool) (s : SinkState)
    (points : List Record) :
    (points = [] → addPointsToDatabase fails s points = s) ∧
    (points ≠ [] →
      (addPointsToDatabase fails s points).attempted = s.attempted ++ [points]) ∧
    (points ≠ [] → fails = true →
      (addPointsToDatabase fails s points).stored = s.stored) := by
  refine ⟨?_, ?_, ?_⟩
  · intro he
    subst he
    rfl
  · intro hne
    have hlen : points.length > 0 := List.length_pos.mpr hne
    unfold addPointsToDatabase
    rw [if_pos hlen]
    cases fails <;> simp [write_points]
  · intro hne hf
    subst hf
    have hlen : points.length > 0 := List.length_pos.mpr hne
    unfold addPointsToDatabase
    rw [if_pos hlen]
    simp [write_points]

theorem addPointsToDatabase_contract_witness :
    addPointsToDatabase true ⟨[], []⟩ [] = (⟨[], []⟩ : SinkState) ∧
    (addPointsToDatabase true ⟨[], []⟩ [recStored]).attempted = [[recStored]] ∧
    (addPointsToDatabase true ⟨[], []⟩ [recStored]).stored = [] :=
  ⟨(addPointsToDatabase_contract true ⟨[], []⟩ []).1 rfl,
   ((addPointsToDatabase_contract true ⟨[], []⟩ [recStored]).2.1 (by simp)).trans rfl,
   ((addPointsToDatabase_contract true ⟨[], []⟩ [recStored]).2.2 (by simp) rfl).trans rfl⟩

/-- Claim C10 (confirmed): when JSON decoding of a settings payload fails
the handler leaves the whole state — the `lastSettingsPoints` cache in
particular — unchanged; after a successful decode the cache is overwritten
with exactly the freshly built record list, even when that list is empty
(erasing any previously cached settings, as the witness shows). -/
theorem settings_handler_cache (clk : Clock) (fails : Bool) (gs : GlobalScope)
    (payload : Option JValue) :
    (payload = none → on_wlanthermo_settings clk fails gs payload = gs) ∧
    (∀ m, payload = some m →
      (on_wlanthermo_settings clk fails gs payload).lastSettingsPoints =
        createSettingsPoints clk m) := by
  constructor
  · intro h
    subst h
    rfl
  · intro m h
    subst h
    rfl

theorem settings_handler_cache_witness :
    on_wlanthermo_settings clk0 false gsPrev none = gsPrev ∧
    gsPrev.lastSettingsPoints = [recStored] ∧
    (on_wlanthermo_settings clk0 false gsPrev
      (some (JValue.jobj []))).lastSettingsPoints = [] :=
  ⟨(settings_handler_cache clk0 false gsPrev none).1 rfl, rfl,
   ((settings_handler_cache clk0 false gsPrev
      (some (JValue.jobj []))).2 (JValue.jobj []) rfl).trans rfl⟩
